import Mathlib

/-!
Verification of the peer-assessment report pipeline
(`pa_report.py` / `peer_assessment_report.py`).

The pipeline is embedded shallowly:
* a CSV data row is a list of string cells; `row[i]?` models Python's
  `row[i]`, with `none` standing for an uncaught `IndexError`;
* Python floats are modelled by exact rationals (`ℚ`); Python 3 `round`
  (round-half-to-even) is `pyRound`;
* Python `int(cell)` is `pyInt` (strip whitespace, optional sign, digits);
* functions whose Python originals can raise an uncaught exception return
  `Option`, with `none` marking the crash.
-/

/-- A CSV data row: an ordered sequence of string cells. -/
abbrev Row := List String

/-- Per-student column indices, as built by `extract_students_and_columns`:
the overall-contribution rating column and the justification column. -/
structure Cols where
  overall : Nat
  justification : Nat
deriving DecidableEq, Repr

/-- The whitespace characters stripped by Python `str.strip()`. -/
def pySpace (c : Char) : Bool :=
  c = ' ' ∨ c = '\t' ∨ c = '\n' ∨ c = '\r' ∨ c = '\x0b' ∨ c = '\x0c'

/-- Python `s.strip()`: remove leading and trailing whitespace. -/
def pyStrip (s : String) : String :=
  String.mk (((s.toList.dropWhile pySpace).reverse.dropWhile pySpace).reverse)

/-- Value of a list of decimal digit characters. -/
def digitsVal (cs : List Char) : Nat :=
  cs.foldl (fun a c => a * 10 + (c.toNat - 48)) 0

/-- Python `int(s)`: strip surrounding whitespace, allow an optional
leading sign, then require a non-empty run of decimal digits; `none`
models a `ValueError`. -/
def pyInt (s : String) : Option Int :=
  match (pyStrip s).toList with
  | [] => none
  | c :: cs =>
    if c = '-' then
      if cs.isEmpty then none
      else if cs.all Char.isDigit then some (-(digitsVal cs : Int)) else none
    else if c = '+' then
      if cs.isEmpty then none
      else if cs.all Char.isDigit then some ((digitsVal cs : Int)) else none
    else if (c :: cs).all Char.isDigit then some ((digitsVal (c :: cs) : Int))
    else none

/-- Python 3 `round` on an exact value: round to the nearest integer,
ties to the even integer. -/
def pyRound (q : ℚ) : ℤ :=
  let f : ℤ := ⌊q⌋
  if q - f < 1 / 2 then f
  else if 1 / 2 < q - f then f + 1
  else if f % 2 = 0 then f else f + 1

/-- `max(0, min(9, n))` from `normalize_scores`. -/
def clamp09 (n : ℤ) : ℤ := max 0 (min 9 n)

/-- `sum(scores) / len(scores) if scores else 0`. -/
def rawAvg (scores : List Int) : ℚ :=
  if scores = [] then 0 else (scores.sum : ℚ) / (scores.length : ℚ)

/-- `rater = row[name_col] if name_col is not None else None`.
The outer `Option` is the crash monad: `none` is the uncaught
`IndexError` raised when the row is shorter than the identity column.
The inner `Option String` is the Python value bound to `rater`
(`none` = Python `None`). -/
def raterOf (nameCol : Option Nat) (row : Row) : Option (Option String) :=
  match nameCol with
  | none => some none
  | some i =>
    match row[i]? with
    | some cell => some (some cell)
    | none => none

/-- The inner row loop of `calculate_scores` for one student: the list of
accepted ratings for that student, in row order.  A row whose identity
cell equals the student's name is skipped (self-rating exclusion); a
rating cell that is missing or unparseable is skipped silently
(`except (ValueError, IndexError)`); a row shorter than the identity
column crashes the whole computation (`none`). -/
def scoresFor (nameCol : Option Nat) (student : String) (cols : Cols) :
    List Row → Option (List Int)
  | [] => some []
  | row :: rest =>
    match raterOf nameCol row with
    | none => none
    | some rater =>
      if rater = some student then scoresFor nameCol student cols rest
      else
        match row[cols.overall]?.bind pyInt with
        | none => scoresFor nameCol student cols rest
        | some v =>
          match scoresFor nameCol student cols rest with
          | none => none
          | some vs => some (v :: vs)

/-- `calculate_scores(data, students, name_col)`: per-student raw averages
(in registry order) and the flat pool of every accepted rating
(per-student lists concatenated in registry order, matching the order in
which Python appends to `all_scores`). -/
def calculate_scores (data : List Row) (students : List (String × Cols))
    (nameCol : Option Nat) : Option (List (String × ℚ) × List Int) :=
  match students with
  | [] => some ([], [])
  | (s, cols) :: rest =>
    match scoresFor nameCol s cols data with
    | none => none
    | some scores =>
      match calculate_scores data rest nameCol with
      | none => none
      | some (ras, pool) => some ((s, rawAvg scores) :: ras, scores ++ pool)

/-- `normalize_scores(raw_avgs, all_scores, target)`: on an empty score
pool return `({}, 0, 0)`; otherwise compute the group mean of the flat
pool, the adjustment `target - group_mean`, and map each raw average to
`clamp09 (pyRound (raw + adjustment))`. -/
def normalize_scores (raw_avgs : List (String × ℚ)) (all_scores : List Int)
    (target : ℚ) : List (String × ℤ) × ℚ × ℚ :=
  if all_scores = [] then ([], 0, 0)
  else
    let group_mean : ℚ := (all_scores.sum : ℚ) / (all_scores.length : ℚ)
    let adjustment : ℚ := target - group_mean
    (raw_avgs.map (fun p => (p.1, clamp09 (pyRound (p.2 + adjustment)))),
      group_mean, adjustment)

/-- The inner row loop of `extract_comments` for one student: the list of
accepted non-empty trimmed justification cells, in row order.  Self
ratings are skipped; a missing justification cell is skipped
(`except IndexError`); a row shorter than the identity column crashes
the whole computation (`none`). -/
def commentsFor (nameCol : Option Nat) (student : String) (cols : Cols) :
    List Row → Option (List String)
  | [] => some []
  | row :: rest =>
    match raterOf nameCol row with
    | none => none
    | some rater =>
      if rater = some student then commentsFor nameCol student cols rest
      else
        match row[cols.justification]? with
        | none => commentsFor nameCol student cols rest
        | some cell =>
          if pyStrip cell = "" then commentsFor nameCol student cols rest
          else
            match commentsFor nameCol student cols rest with
            | none => none
            | some cs => some (pyStrip cell :: cs)

/-- `extract_comments(data, students, name_col)`: the `defaultdict(list)`
of comments.  A student becomes a key exactly when their first accepted
comment is appended, so students with an empty comment list are absent
from the key list. -/
def extract_comments (data : List Row) (students : List (String × Cols))
    (nameCol : Option Nat) : Option (List (String × List String)) :=
  match students with
  | [] => some []
  | (s, cols) :: rest =>
    match commentsFor nameCol s cols data with
    | none => none
    | some cs =>
      match extract_comments data rest nameCol with
      | none => none
      | some m => some (if cs = [] then m else (s, cs) :: m)

/-- Reading `comments[student]` from the `defaultdict(list)`: a present
key yields its stored list, an absent key yields the empty list; the
lookup never fails. -/
def commentsGet (m : List (String × List String)) (name : String) :
    List String :=
  match m.lookup name with
  | some l => l
  | none => []

/-- `sorted(normalised.values())` in `generate_report`. -/
def sortedVals (norm : List (String × ℤ)) : List ℤ :=
  List.insertionSort (· ≤ ·) (norm.map Prod.snd)

/-- `sorted_vals[len(sorted_vals) // 2] if sorted_vals else 0`: the
median displayed in the post-table group statistics. -/
def reportMedian (norm : List (String × ℤ)) : ℤ :=
  match (sortedVals norm)[(sortedVals norm).length / 2]? with
  | some v => v
  | none => 0

/-- `sum(normalised.values()) / len(normalised) if normalised else 0`:
the mean of the normalised scores displayed in the group statistics. -/
def intMeanOf (norm : List (String × ℤ)) : ℚ :=
  if norm = [] then 0
  else ((norm.map Prod.snd).sum : ℚ) / (norm.length : ℚ)

/-- One summary-table row per student, in order: name, `raw_avgs[student]`,
`normalised[student]`.  A name absent from either mapping is an uncaught
`KeyError` (`none`). -/
def tableRowsOf (students : List String) (ra : List (String × ℚ))
    (norm : List (String × ℤ)) : Option (List (String × ℚ × ℤ)) :=
  match students with
  | [] => some []
  | s :: rest =>
    match ra.lookup s, norm.lookup s with
    | some r, some n =>
      match tableRowsOf rest ra norm with
      | some t => some ((s, r, n) :: t)
      | none => none
    | _, _ => none

/-- One feedback block per student, in order: name, `normalised[student]`
(a `KeyError` when absent), and `comments[student]` (defaultdict lookup,
never failing). -/
def feedbackOf (students : List String) (norm : List (String × ℤ))
    (cmts : List (String × List String)) :
    Option (List (String × ℤ × List String)) :=
  match students with
  | [] => some []
  | s :: rest =>
    match norm.lookup s with
    | none => none
    | some n =>
      match feedbackOf rest norm cmts with
      | none => none
      | some f => some ((s, n, commentsGet cmts s) :: f)

/-- The data content of the printed report: header statistics, the
summary-table rows, the post-table group statistics, and the per-student
feedback blocks. -/
structure Report where
  title : String
  totalStudents : Nat
  groupMeanShown : ℚ
  adjustmentShown : ℚ
  tableRows : List (String × ℚ × ℤ)
  normalizedMean : ℚ
  medianShown : ℤ
  feedback : List (String × ℤ × List String)
deriving DecidableEq, Repr

/-- `generate_report(students, raw_avgs, normalised, comments, group_mean,
adjustment, title)`: renders the report content, iterating the students
in registry order.  `none` models the run aborting with an uncaught
`KeyError` while rendering a row or feedback block. -/
def generate_report (students : List (String × Cols))
    (raw_avgs : List (String × ℚ)) (normalised : List (String × ℤ))
    (comments : List (String × List String)) (group_mean adjustment : ℚ)
    (title : String) : Option Report :=
  match tableRowsOf (students.map Prod.fst) raw_avgs normalised with
  | none => none
  | some rows =>
    match feedbackOf (students.map Prod.fst) normalised comments with
    | none => none
    | some fb =>
      some ⟨title, students.length, group_mean, adjustment, rows,
        intMeanOf normalised, reportMedian normalised, fb⟩

/-! ## Helper lemmas -/

/-- Removing the rows whose identity cell equals the student's name does
not change the student's accepted score list (those rows are skipped by
the self-rating test in `calculate_scores`). -/
theorem scoresFor_filter_self (i : Nat) (s : String) (cols : Cols) :
    ∀ data : List Row,
      scoresFor (some i) s cols (data.filter (fun r => !(r[i]? == some s)))
        = scoresFor (some i) s cols data := by
  intro data
  induction data with
  | nil => rfl
  | cons row rest ih =>
    cases hg : row[i]? with
    | none =>
      simp only [List.filter_cons, hg]
      simp [scoresFor, raterOf, hg, ih]
    | some c =>
      by_cases hc : c = s
      · subst hc
        simp only [List.filter_cons, hg]
        simp [scoresFor, raterOf, hg, ih]
      · simp only [List.filter_cons, hg]
        simp [scoresFor, raterOf, hg, hc, ih]

/-- Removing the rows whose identity cell equals the student's name does
not change the student's accepted comment list (those rows are skipped
by the self-rating test in `extract_comments`). -/
theorem commentsFor_filter_self (i : Nat) (s : String) (cols : Cols) :
    ∀ data : List Row,
      commentsFor (some i) s cols (data.filter (fun r => !(r[i]? == some s)))
        = commentsFor (some i) s cols data := by
  intro data
  induction data with
  | nil => rfl
  | cons row rest ih =>
    cases hg : row[i]? with
    | none =>
      simp only [List.filter_cons, hg]
      simp [commentsFor, raterOf, hg, ih]
    | some c =>
      by_cases hc : c = s
      · subst hc
        simp only [List.filter_cons, hg]
        simp [commentsFor, raterOf, hg, ih]
      · simp only [List.filter_cons, hg]
        simp [commentsFor, raterOf, hg, hc, ih]

/-- Summing `p.2 + c` over an association list. -/
theorem sum_map_add_const (l : List (String × ℚ)) (c : ℚ) :
    (l.map (fun p => p.2 + c)).sum = (l.map Prod.snd).sum + l.length * c := by
  induction l with
  | nil => simp
  | cons h t ih => simp [ih]; ring

/-- The raw-average mapping produced by `calculate_scores` has exactly
the registry's names as keys, in registry order. -/
theorem calculate_scores_keys (data : List Row) (nameCol : Option Nat) :
    ∀ (students : List (String × Cols)) (ra : List (String × ℚ)) (pool : List Int),
      calculate_scores data students nameCol = some (ra, pool) →
      ra.map Prod.fst = students.map Prod.fst := by
  intro students
  induction students with
  | nil =>
    intro ra pool h
    simp [calculate_scores] at h
    simp [h.1]
  | cons hd tl ih =>
    intro ra pool h
    obtain ⟨s, cols⟩ := hd
    simp only [calculate_scores] at h
    cases hs : scoresFor nameCol s cols data with
    | none => rw [hs] at h; simp at h
    | some scores =>
      rw [hs] at h
      cases hc : calculate_scores data tl nameCol with
      | none => rw [hc] at h; simp at h
      | some pr =>
        obtain ⟨ras, pool2⟩ := pr
        rw [hc] at h
        simp only [Option.some.injEq, Prod.mk.injEq] at h
        obtain ⟨h1, h2⟩ := h
        rw [← h1]
        simp [ih ras pool2 hc]

/-- With a non-empty score pool, `normalize_scores` keeps exactly the
keys of the raw-average mapping, in order. -/
theorem normalize_keys (ra : List (String × ℚ)) (pool : List Int) (t : ℚ)
    (h : pool ≠ []) :
    (normalize_scores ra pool t).1.map Prod.fst = ra.map Prod.fst := by
  simp [normalize_scores, if_neg h]

/-- A registered student whose accepted score list is empty gets raw
average exactly `0` in the mapping returned by `calculate_scores`. -/
theorem calculate_scores_lookup_empty (data : List Row) (nameCol : Option Nat)
    (s : String) (cols : Cols) :
    ∀ (students : List (String × Cols)) (ra : List (String × ℚ)) (pool : List Int),
      (students.map Prod.fst).Nodup →
      (s, cols) ∈ students →
      scoresFor nameCol s cols data = some [] →
      calculate_scores data students nameCol = some (ra, pool) →
      ra.lookup s = some 0 := by
  intro students
  induction students with
  | nil => intro ra pool _ hmem; simp at hmem
  | cons hd tl ih =>
    intro ra pool hnd hmem hsf hcalc
    obtain ⟨s2, cols2⟩ := hd
    have hnds : (s2 :: tl.map Prod.fst).Nodup := by simpa using hnd
    obtain ⟨hnotin, hndtl⟩ := List.nodup_cons.mp hnds
    simp only [calculate_scores] at hcalc
    cases hs : scoresFor nameCol s2 cols2 data with
    | none => rw [hs] at hcalc; simp at hcalc
    | some scores =>
      rw [hs] at hcalc
      cases hc : calculate_scores data tl nameCol with
      | none => rw [hc] at hcalc; simp at hcalc
      | some pr =>
        obtain ⟨ras, pool2⟩ := pr
        rw [hc] at hcalc
        simp only [Option.some.injEq, Prod.mk.injEq] at hcalc
        obtain ⟨h1, h2⟩ := hcalc
        by_cases he : s2 = s
        · subst he
          have hcols : cols = cols2 := by
            rcases List.mem_cons.mp hmem with h3 | h3
            · simpa using h3
            · exact absurd (List.mem_map_of_mem Prod.fst h3) hnotin
          subst hcols
          rw [hs] at hsf
          have hsc : scores = [] := by simpa using hsf
          subst hsc
          rw [← h1]
          simp [List.lookup, rawAvg]
        · have hmem2 : (s, cols) ∈ tl := by
            rcases List.mem_cons.mp hmem with h3 | h3
            · exact absurd (congrArg Prod.fst h3).symm he
            · exact h3
          rw [← h1]
          have hne : (s == s2) = false := by
            simp only [beq_eq_false_iff_ne, ne_eq]
            exact fun hh => he hh.symm
          simp only [List.lookup, hne]
          exact ih ras pool2 hndtl hmem2 hsf hc

/-- Whether the per-student feedback blocks can all be rendered does not
depend on the comments mapping: its lookups never fail. -/
theorem feedbackOf_isSome_switch (norm : List (String × ℤ))
    (cmts cmts2 : List (String × List String)) :
    ∀ students : List String,
      (feedbackOf students norm cmts).isSome →
      (feedbackOf students norm cmts2).isSome := by
  intro students
  induction students with
  | nil => intro _; simp [feedbackOf]
  | cons s rest ih =>
    intro h
    simp only [feedbackOf] at h ⊢
    cases hl : norm.lookup s with
    | none => rw [hl] at h; simp at h
    | some n =>
      rw [hl] at h
      cases hf : feedbackOf rest norm cmts with
      | none => rw [hf] at h; simp at h
      | some f =>
        have hsome : (feedbackOf rest norm cmts).isSome := by rw [hf]; rfl
        have h2 := ih hsome
        cases hf2 : feedbackOf rest norm cmts2 with
        | none => rw [hf2] at h2; simp at h2
        | some f2 => rfl

/-! ## Claim theorems -/

/-- C1: every score in the mapping returned by `normalize_scores` is an
integer in the closed range `[0, 9]`: the adjusted raw average is rounded
to the nearest integer and then clamped to `0` below and `9` above. -/
theorem normalized_scores_in_range (raw_avgs : List (String × ℚ)) (all_scores : List Int)
    (target : ℚ) (s : String) (v : ℤ)
    (h : (s, v) ∈ (normalize_scores raw_avgs all_scores target).1) :
    0 ≤ v ∧ v ≤ 9 := by
  by_cases he : all_scores = []
  · simp [normalize_scores, he] at h
  · simp only [normalize_scores, if_neg he, List.mem_map] at h
    obtain ⟨p, hp, hpe⟩ := h
    have hv : v = clamp09 (pyRound (p.2 + (target - (↑all_scores.sum / ↑all_scores.length)))) := by
      have h2 := congrArg Prod.snd hpe
      simpa using h2.symm
    rw [hv]
    unfold clamp09
    omega

/-- C1 witness: the adjusted score of `A` on a concrete input lies in
`[0, 9]`. -/
theorem normalized_scores_in_range_witness :
    ("A", (5:ℤ)) ∈ (normalize_scores [("A", (4:ℚ))] [(4:ℤ)] 5).1 ∧
      (0 ≤ (5:ℤ) ∧ (5:ℤ) ≤ 9) := by
  have heq : (normalize_scores [("A", (4:ℚ))] [(4:ℤ)] 5).1 = [("A", 5)] := by
    simp [normalize_scores, clamp09]
    norm_num [pyRound]
  have hm : ("A", (5:ℤ)) ∈ (normalize_scores [("A", (4:ℚ))] [(4:ℤ)] 5).1 := by
    rw [heq]; simp
  exact ⟨hm, normalized_scores_in_range [("A", (4:ℚ))] [(4:ℤ)] 5 "A" 5 hm⟩

/-- C2: a data row whose identity-column cell is exactly equal
(case-sensitive, untrimmed) to a student's registered name contributes
neither to that student's accepted score list (hence raw average in
`calculate_scores`) nor to their comment list (`extract_comments`):
deleting all such rows leaves both computations unchanged. -/
theorem self_rating_excluded (data : List Row) (i : Nat) (s : String) (cols : Cols) :
    scoresFor (some i) s cols (data.filter (fun r => !(r[i]? == some s)))
        = scoresFor (some i) s cols data ∧
      commentsFor (some i) s cols (data.filter (fun r => !(r[i]? == some s)))
        = commentsFor (some i) s cols data :=
  ⟨scoresFor_filter_self i s cols data, commentsFor_filter_self i s cols data⟩

/-- C3: contrary to the claim, a data row shorter than the detected
identity column aborts the whole run: the uncaught read of the identity
cell makes both `calculate_scores` and `extract_comments` crash
(`none`), while a row that merely misses the rating column is indeed
skipped at single-cell granularity. -/
theorem ragged_identity_row_aborts :
    calculate_scores [[]] [("Alice", ⟨3, 4⟩)] (some 0) = none ∧
      extract_comments [[]] [("Alice", ⟨3, 4⟩)] (some 0) = none ∧
      calculate_scores [["Bob"]] [("Alice", ⟨3, 4⟩)] (some 0)
        = some ([("Alice", 0)], []) := by
  refine ⟨by decide, by decide, ?_⟩
  simp [calculate_scores,
    (show scoresFor (some 0) "Alice" ⟨3, 4⟩ [["Bob"]] = some [] from by decide),
    rawAvg]

/-- C4: contrary to the claim, with one detected student and an empty
score pool the report does not render: `normalize_scores` returns an
empty mapping, and `generate_report` crashes (`none`) on the lookup of
the student in that empty mapping while rendering the summary row. -/
theorem empty_pool_report_crashes :
    calculate_scores [["Bob", "x", "y", "abc", "hi"]] [("Alice", ⟨3, 4⟩)] (some 0)
        = some ([("Alice", 0)], []) ∧
      normalize_scores [("Alice", 0)] [] 5 = ([], 0, 0) ∧
      extract_comments [["Bob", "x", "y", "abc", "hi"]] [("Alice", ⟨3, 4⟩)] (some 0)
        = some [("Alice", ["hi"])] ∧
      generate_report [("Alice", ⟨3, 4⟩)] [("Alice", 0)] [] [("Alice", ["hi"])] 0 0
        "PEER ASSESSMENT REPORT" = none := by
  refine ⟨?_, by simp [normalize_scores], by decide, by rfl⟩
  simp [calculate_scores,
    (show scoresFor (some 0) "Alice" ⟨3, 4⟩ [["Bob", "x", "y", "abc", "hi"]] = some []
      from by decide),
    rawAvg]

/-- C5 (amended): with a non-empty registry and pool, the mean over
students of `raw_average + adjustment` equals
`target + (mean of per-student raw averages − group mean)`; it equals
the target exactly when those two means agree, not in general. -/
theorem adjusted_mean_offset (raw_avgs : List (String × ℚ)) (all_scores : List Int)
    (target : ℚ) (hra : raw_avgs ≠ []) (hs : all_scores ≠ []) :
    (raw_avgs.map (fun p => p.2 + (normalize_scores raw_avgs all_scores target).2.2)).sum
        / (raw_avgs.length : ℚ)
      = target + ((raw_avgs.map Prod.snd).sum / (raw_avgs.length : ℚ)
          - (normalize_scores raw_avgs all_scores target).2.1) := by
  have hn : (raw_avgs.length : ℚ) ≠ 0 := by simpa using hra
  have hp : (all_scores.length : ℚ) ≠ 0 := by simpa using hs
  simp only [normalize_scores, if_neg hs]
  rw [sum_map_add_const]
  field_simp
  ring

/-- C5 witness: the amended identity at a one-student instance. -/
theorem adjusted_mean_offset_witness :
    ([("A", (1:ℚ))] ≠ ([] : List (String × ℚ))) ∧
      ([(2:ℤ)] ≠ ([] : List ℤ)) ∧
      ([("A", (1:ℚ))].map
            (fun p => p.2 + (normalize_scores [("A", (1:ℚ))] [(2:ℤ)] 5).2.2)).sum
          / (([("A", (1:ℚ))].length : ℚ))
        = 5 + (([("A", (1:ℚ))].map Prod.snd).sum / (([("A", (1:ℚ))].length : ℚ))
            - (normalize_scores [("A", (1:ℚ))] [(2:ℤ)] 5).2.1) :=
  ⟨by simp, by simp, adjusted_mean_offset [("A", (1:ℚ))] [(2:ℤ)] 5 (by simp) (by simp)⟩

/-- C5 counterexample: with students rated `[2]` and `[4, 4, 4]`, the
mean over students of `raw_average + adjustment` is `9/2`, not the
target `5` (the mean of per-student averages differs from the flat-pool
group mean when rating counts differ). -/
theorem adjusted_mean_not_target :
    calculate_scores [["X", "2", "4"], ["Y", "", "4"], ["Z", "", "4"]]
        [("A", ⟨1, 2⟩), ("B", ⟨2, 3⟩)] (some 0)
      = some ([("A", 2), ("B", 4)], [2, 4, 4, 4]) ∧
    ¬ (([("A", (2:ℚ)), ("B", 4)].map
          (fun p => p.2 + (normalize_scores [("A", (2:ℚ)), ("B", 4)] [2, 4, 4, 4] 5).2.2)).sum
        / (([("A", (2:ℚ)), ("B", 4)].length : ℚ)) = 5) := by
  constructor
  · simp [calculate_scores,
      (show scoresFor (some 0) "A" ⟨1, 2⟩ [["X", "2", "4"], ["Y", "", "4"], ["Z", "", "4"]]
          = some [2] from by decide),
      (show scoresFor (some 0) "B" ⟨2, 3⟩ [["X", "2", "4"], ["Y", "", "4"], ["Z", "", "4"]]
          = some [4, 4, 4] from by decide),
      rawAvg]
    norm_num
  · simp [normalize_scores]
    norm_num

/-- C6 (amended): the median displayed in the post-table group
statistics is `0` for an empty normalized mapping; otherwise it is an
element of the normalized scores, namely the element at index
`count / 2` of the zero-based ascending-sorted list — the upper-middle
element for an even count, not the lower-middle one. -/
theorem report_median_upper_middle (norm : List (String × ℤ)) :
    (norm = [] → reportMedian norm = 0) ∧
    (norm ≠ [] →
      reportMedian norm ∈ norm.map Prod.snd ∧
      reportMedian norm = (sortedVals norm).getD ((sortedVals norm).length / 2) 0) := by
  constructor
  · intro h; subst h; rfl
  · intro h
    have hlen : 0 < (sortedVals norm).length := by
      unfold sortedVals
      rw [List.length_insertionSort]
      simpa using List.length_pos.mpr (by simpa using h)
    have hidx : (sortedVals norm).length / 2 < (sortedVals norm).length :=
      Nat.div_lt_self hlen (by norm_num)
    have hget : (sortedVals norm)[(sortedVals norm).length / 2]?
        = some ((sortedVals norm).get ⟨(sortedVals norm).length / 2, hidx⟩) := by
      rw [List.getElem?_eq_getElem hidx]
      rfl
    have hmed : reportMedian norm
        = (sortedVals norm).get ⟨(sortedVals norm).length / 2, hidx⟩ := by
      unfold reportMedian
      rw [hget]
    constructor
    · rw [hmed]
      have hmem : (sortedVals norm).get ⟨(sortedVals norm).length / 2, hidx⟩ ∈ sortedVals norm :=
        List.get_mem _ _ hidx
      unfold sortedVals at hmem
      exact (List.mem_insertionSort _).mp hmem
    · rw [hmed, List.getD_eq_getElem?_getD, hget]
      rfl

/-- C6 witness: on a two-element normalized mapping the displayed median
is a member of the scores and sits at sorted index `count / 2`. -/
theorem report_median_upper_middle_witness :
    ([("A", (1:ℤ)), ("B", 2)] ≠ ([] : List (String × ℤ))) ∧
      (reportMedian [("A", (1:ℤ)), ("B", 2)] ∈ [("A", (1:ℤ)), ("B", 2)].map Prod.snd ∧
        reportMedian [("A", (1:ℤ)), ("B", 2)]
          = (sortedVals [("A", (1:ℤ)), ("B", 2)]).getD
              ((sortedVals [("A", (1:ℤ)), ("B", 2)]).length / 2) 0) :=
  ⟨by simp, (report_median_upper_middle [("A", (1:ℤ)), ("B", 2)]).2 (by simp)⟩

/-- C6 counterexample: a pipeline run yielding normalized scores
`A ↦ 4, B ↦ 6` displays median `6`, the upper-middle element of the
sorted list `[4, 6]`, not the lower-middle element `4` at index
`count / 2 − 1` the claim demands. -/
theorem report_median_not_lower_middle :
    calculate_scores [["4", "5"]] [("A", ⟨0, 1⟩), ("B", ⟨1, 2⟩)] none
        = some ([("A", 4), ("B", 5)], [4, 5]) ∧
      (normalize_scores [("A", (4:ℚ)), ("B", 5)] [4, 5] 5).1 = [("A", 4), ("B", 6)] ∧
      sortedVals [("A", (4:ℤ)), ("B", 6)] = [4, 6] ∧
      reportMedian [("A", (4:ℤ)), ("B", 6)] = 6 ∧
      ¬ (reportMedian [("A", (4:ℤ)), ("B", 6)]
          = (sortedVals [("A", (4:ℤ)), ("B", 6)]).getD
              ((sortedVals [("A", (4:ℤ)), ("B", 6)]).length / 2 - 1) 0) := by
  refine ⟨?_, ?_, by decide, by decide, by decide⟩
  · simp [calculate_scores,
      (show scoresFor none "A" ⟨0, 1⟩ [["4", "5"]] = some [4] from by decide),
      (show scoresFor none "B" ⟨1, 2⟩ [["4", "5"]] = some [5] from by decide),
      rawAvg]
  · simp [normalize_scores, clamp09]
    norm_num [pyRound]

/-- C7: on an empty score pool, `normalize_scores` returns exactly the
triple of an empty mapping, group mean `0` and adjustment `0`, whatever
the raw-average mapping and target are. -/
theorem normalize_scores_empty_pool (raw_avgs : List (String × ℚ)) (target : ℚ) :
    normalize_scores raw_avgs [] target = ([], 0, 0) := by
  simp [normalize_scores]

/-- C8 (amended): a registered student with no accepted rating has raw
average exactly `0` and is a key of the raw-average mapping; they are a
key of the normalized mapping whenever the flat score pool is non-empty
(but not when it is empty, and they are a key of the comments mapping
only once an accepted comment exists). -/
theorem unrated_student_keys (data : List Row) (students : List (String × Cols))
    (nameCol : Option Nat) (s : String) (cols : Cols) (ra : List (String × ℚ))
    (pool : List Int) (target : ℚ)
    (hnd : (students.map Prod.fst).Nodup) (hmem : (s, cols) ∈ students)
    (hsf : scoresFor nameCol s cols data = some [])
    (hcalc : calculate_scores data students nameCol = some (ra, pool)) :
    ra.lookup s = some 0 ∧
      (pool ≠ [] → s ∈ (normalize_scores ra pool target).1.map Prod.fst) := by
  refine ⟨calculate_scores_lookup_empty data nameCol s cols students ra pool hnd hmem hsf hcalc, ?_⟩
  intro hp
  rw [normalize_keys ra pool target hp,
    calculate_scores_keys data nameCol students ra pool hcalc]
  exact List.mem_map_of_mem Prod.fst hmem

/-- C8 witness: `Alice` has no accepted rating while `B` is rated `7`;
`Alice` is mapped to `0` and is still a key of the normalized mapping. -/
theorem unrated_student_keys_witness :
    ([("Alice", (⟨1, 2⟩ : Cols)), ("B", ⟨3, 4⟩)].map Prod.fst).Nodup ∧
      ("Alice", (⟨1, 2⟩ : Cols)) ∈ [("Alice", (⟨1, 2⟩ : Cols)), ("B", ⟨3, 4⟩)] ∧
      scoresFor (some 0) "Alice" ⟨1, 2⟩ [["", "", "", "7", ""]] = some [] ∧
      calculate_scores [["", "", "", "7", ""]] [("Alice", ⟨1, 2⟩), ("B", ⟨3, 4⟩)] (some 0)
        = some ([("Alice", 0), ("B", 7)], [7]) ∧
      [("Alice", (0:ℚ)), ("B", 7)].lookup "Alice" = some 0 ∧
      "Alice" ∈ (normalize_scores [("Alice", (0:ℚ)), ("B", 7)] [7] 5).1.map Prod.fst := by
  have hcalc : calculate_scores [["", "", "", "7", ""]]
      [("Alice", ⟨1, 2⟩), ("B", ⟨3, 4⟩)] (some 0)
      = some ([("Alice", 0), ("B", 7)], [7]) := by
    simp [calculate_scores,
      (show scoresFor (some 0) "Alice" ⟨1, 2⟩ [["", "", "", "7", ""]] = some []
        from by decide),
      (show scoresFor (some 0) "B" ⟨3, 4⟩ [["", "", "", "7", ""]] = some [7]
        from by decide),
      rawAvg]
  have h := unrated_student_keys [["", "", "", "7", ""]]
    [("Alice", ⟨1, 2⟩), ("B", ⟨3, 4⟩)] (some 0) "Alice" ⟨1, 2⟩
    [("Alice", 0), ("B", 7)] [7] 5 (by decide) (by decide) (by decide) hcalc
  exact ⟨by decide, by decide, by decide, hcalc, h.1, h.2 (by simp)⟩

/-- C8 counterexample: a registered student with no ratings at all is a
key of the raw-average mapping but, the score pool being empty, is
absent from the normalized mapping, and absent from the comments
mapping's keys — refuting presence in every output mapping. -/
theorem unrated_student_missing_key :
    calculate_scores [] [("Alice", ⟨3, 4⟩)] none = some ([("Alice", 0)], []) ∧
      "Alice" ∉ (normalize_scores [("Alice", (0:ℚ))] [] 5).1.map Prod.fst ∧
      extract_comments [] [("Alice", ⟨3, 4⟩)] none = some [] := by
  refine ⟨by simp [calculate_scores, scoresFor, rawAvg], ?_, by decide⟩
  simp [normalize_scores]

/-- C9: with a non-empty score pool, the normalized mapping has exactly
the same keys as the raw-average mapping, in the same order. -/
theorem normalize_scores_key_set (raw_avgs : List (String × ℚ)) (all_scores : List Int)
    (target : ℚ) (h : all_scores ≠ []) :
    (normalize_scores raw_avgs all_scores target).1.map Prod.fst
      = raw_avgs.map Prod.fst :=
  normalize_keys raw_avgs all_scores target h

/-- C9 witness: key preservation at a concrete instance. -/
theorem normalize_scores_key_set_witness :
    ([(2:ℤ)] ≠ ([] : List ℤ)) ∧
      (normalize_scores [("A", (1:ℚ))] [(2:ℤ)] 5).1.map Prod.fst
        = [("A", (1:ℚ))].map Prod.fst :=
  ⟨by simp, normalize_scores_key_set [("A", (1:ℚ))] [(2:ℤ)] 5 (by simp)⟩

/-- C10: comment lookup is total with an empty default: any name absent
from the comments mapping yields `[]` rather than failing, and report
generation succeeds or fails independently of the comments mapping. -/
theorem comments_default_total :
    (∀ (m : List (String × List String)) (name : String),
        name ∉ m.map Prod.fst → commentsGet m name = []) ∧
    (∀ (students : List (String × Cols)) (ra : List (String × ℚ))
        (norm : List (String × ℤ)) (gm adj : ℚ) (title : String)
        (cmts cmts2 : List (String × List String)),
        (generate_report students ra norm cmts gm adj title).isSome →
        (generate_report students ra norm cmts2 gm adj title).isSome) := by
  constructor
  · intro m
    induction m with
    | nil => intro name _; rfl
    | cons hd tl ih =>
      intro name hn
      obtain ⟨k, v⟩ := hd
      simp only [List.map_cons, List.mem_cons] at hn
      push_neg at hn
      have hne : (name == k) = false := by
        simp only [beq_eq_false_iff_ne, ne_eq]
        exact hn.1
      simp only [commentsGet, List.lookup, hne]
      exact ih name hn.2
  · intro students ra norm gm adj title cmts cmts2 h
    simp only [generate_report] at h ⊢
    cases ht : tableRowsOf (students.map Prod.fst) ra norm with
    | none => rw [ht] at h; simp at h
    | some rows =>
      rw [ht] at h
      cases hf : feedbackOf (students.map Prod.fst) norm cmts with
      | none => rw [hf] at h; simp at h
      | some f =>
        have hsome : (feedbackOf (students.map Prod.fst) norm cmts).isSome := by
          rw [hf]; rfl
        have h2 := feedbackOf_isSome_switch norm cmts cmts2 _ hsome
        cases hf2 : feedbackOf (students.map Prod.fst) norm cmts2 with
        | none => rw [hf2] at h2; simp at h2
        | some f2 => rfl

/-- C10 witness: lookup of an unseen name yields `[]`, and a report that
renders with one comments mapping also renders with an empty one. -/
theorem comments_default_total_witness :
    (("X" : String) ∉ (([] : List (String × List String)).map Prod.fst)) ∧
      commentsGet [] "X" = [] ∧
      (generate_report [("A", ⟨0, 1⟩)] [("A", (0:ℚ))] [("A", (5:ℤ))] [] 0 0 "T").isSome := by
  refine ⟨by simp, comments_default_total.1 [] "X" (by simp), ?_⟩
  exact comments_default_total.2 [("A", ⟨0, 1⟩)] [("A", 0)] [("A", 5)] 0 0 "T"
    [("A", ["x"])] [] (by rfl)
